import Mathlib

/-!
Verification of the Vulkan GPU device resource-lifecycle manager
(`source/blender/gpu/vulkan/vk_device.hh`).

The shallow embedding models the data the claims are about:
`VKThreadData` with its fixed ring of five `VKResourcePool`s and the
sentinel-initialised `current_swap_chain_index` (from the header), the
`VKDiscardPool` drain semantics, the device-level context registry,
thread-data map and orphan discard pool, and the per-frame ring rotation.
Definitions whose C++ bodies live outside the header carry a
doc comment starting with the words Modelled from the spec.
-/

namespace VKSpec

/-- Value of the C sentinel UINT32_MAX used to initialise
`current_swap_chain_index` in `vk_device.hh` line 66. -/
def UINT32_MAX : Nat := 2 ^ 32 - 1

/-- One entry of a discard pool: a resource handle together with its
retirement marker (an opaque token whose satisfaction is checked at drain
time against the GPU state). -/
structure DiscardEntry where
  resource : Nat
  marker : Nat
deriving DecidableEq, Repr

/-- Modelled from the spec: `VKDiscardPool` (declared in `vk_device.hh`,
body elsewhere) is an append-only queue of (resource, retirement marker)
entries. -/
structure VKDiscardPool where
  entries : List DiscardEntry
deriving DecidableEq, Repr

/-- Modelled from the spec: `enqueue(resource, retirement_marker)` records a
resource for deferred release; never blocks. -/
def VKDiscardPool.enqueue (p : VKDiscardPool) (e : DiscardEntry) : VKDiscardPool :=
  ⟨p.entries ++ [e]⟩

/-- Modelled from the spec: `drain(force)` iterates pending entries and
releases every entry whose retirement marker indicates GPU completion;
with `force` set it releases all entries unconditionally after best-effort
marker checks. `satisfied` is the marker check against the current GPU
state. Returns the pool after draining and the list of released entries. -/
def VKDiscardPool.drain (p : VKDiscardPool) (satisfied : Nat → Bool) (force : Bool) :
    VKDiscardPool × List DiscardEntry :=
  (⟨p.entries.filter (fun e => !(force || satisfied e.marker))⟩,
   p.entries.filter (fun e => force || satisfied e.marker))

/-- A resource pool of one ring slot. The GPU objects it holds are opaque
to the claims; what matters is the discard pool that drains with the slot
(`vk_resource_pool.hh`, used via `vk_device.hh`). -/
structure VKResourcePool where
  discard_pool : VKDiscardPool
deriving DecidableEq, Repr

/-- A freshly constructed, empty resource pool. -/
def VKResourcePool.fresh : VKResourcePool := ⟨⟨[]⟩⟩

/-- Embedding of `class VKThreadData` (`vk_device.hh` lines 61-85):
thread id, render-graph state elided, `current_swap_chain_index` and the
ring `std::array<VKResourcePool, 5> swap_chain_resources`. The subtype on
the ring mirrors the `std::array` type: its length is part of the type and
is 5. -/
structure VKThreadData where
  thread_id : Nat
  current_swap_chain_index : Nat
  swap_chain_resources : { l : List VKResourcePool // l.length = 5 }
deriving DecidableEq, Repr

/-- Slot accessor: the pool stored at ring index `i`. -/
def VKThreadData.slot (t : VKThreadData) (i : Fin 5) : VKResourcePool :=
  t.swap_chain_resources.val.get
    ⟨i.val, by rw [t.swap_chain_resources.property]; exact i.isLt⟩

/-- Embedding of `VKThreadData::resource_pool_get` (`vk_device.hh` lines
78-84): if `current_swap_chain_index >= swap_chain_resources.size()` return
`swap_chain_resources[0]`, else `swap_chain_resources[current_swap_chain_index]`. -/
def VKThreadData.resource_pool_get (t : VKThreadData) : VKResourcePool :=
  if h : t.swap_chain_resources.val.length ≤ t.current_swap_chain_index then
    t.swap_chain_resources.val.get ⟨0, by rw [t.swap_chain_resources.property]; omega⟩
  else
    t.swap_chain_resources.val.get ⟨t.current_swap_chain_index, by omega⟩

/-- Ring index actually accessed by `resource_pool_get`, following the same
branch structure as the source. -/
def VKThreadData.resource_pool_index (t : VKThreadData) : Nat :=
  if t.swap_chain_resources.val.length ≤ t.current_swap_chain_index then 0
  else t.current_swap_chain_index

/-- Embedding of the `VKThreadData` constructor as far as the header fixes
it: the thread id is stored, `current_swap_chain_index` carries its
initialiser `UINT32_MAX` (`vk_device.hh` line 66), and the ring holds five
fresh pools. -/
def freshThreadData (tid : Nat) : VKThreadData where
  thread_id := tid
  current_swap_chain_index := UINT32_MAX
  swap_chain_resources := ⟨List.replicate 5 VKResourcePool.fresh, by simp⟩

/-- Modelled from the spec: the only mutation of a thread ring slot index,
performed at frame boundaries by swap-chain rotation (outside the header);
it changes the current slot index and nothing else. -/
def VKThreadData.set_swap_chain_index (t : VKThreadData) (i : Nat) : VKThreadData :=
  { t with current_swap_chain_index := i }

lemma resource_pool_index_lt (t : VKThreadData) : t.resource_pool_index < 5 := by
  unfold VKThreadData.resource_pool_index
  rcases Nat.lt_or_ge t.current_swap_chain_index t.swap_chain_resources.val.length with h | h
  · rw [if_neg (by omega)]
    have := t.swap_chain_resources.property
    omega
  · rw [if_pos h]; omega

lemma resource_pool_get_eq_slot (t : VKThreadData) :
    t.resource_pool_get = t.slot ⟨t.resource_pool_index, resource_pool_index_lt t⟩ := by
  unfold VKThreadData.resource_pool_get VKThreadData.resource_pool_index VKThreadData.slot
  split
  · rfl
  · rfl

/-- A rendering context as the device registry sees it: an identity plus
the identity of the thread it runs on (`VKContext` is opaque here; the
registry `Vector<std::reference_wrapper<VKContext>> contexts_` stores
non-owning references, modelled by identities). -/
structure VKContext where
  id : Nat
  thread_id : Nat
deriving DecidableEq, Repr

/-- Embedding of the `VKDevice` state the claims touch (`vk_device.hh`
lines 87-315): whether the logical device handle is live
(`vk_device_ != VK_NULL_HANDLE`), the context registry `contexts_`, the
per-thread map `thread_data_`, and the orphan pool `orphaned_data`.
Capability tables, caches and function pointers are irrelevant to the
claims and elided. -/
structure VKDevice where
  vk_device_valid : Bool
  contexts_ : List VKContext
  thread_data_ : List VKThreadData
  orphaned_data : VKDiscardPool
deriving DecidableEq, Repr

/-- A device as it stands before `init`: no live handle, empty registry,
no thread data, empty orphan pool. -/
def VKDevice.uninitialized : VKDevice :=
  ⟨false, [], [], ⟨[]⟩⟩

/-- Modelled from the spec: `is_initialized()` (declared `vk_device.hh`
line 231, body elsewhere) is a pure query of whether the logical device
handle is live. -/
def VKDevice.is_initialized (d : VKDevice) : Bool :=
  d.vk_device_valid

/-- Modelled from the spec: `current_thread_data()` (declared `vk_device.hh`
line 270, body elsewhere) returns the thread data of the calling thread,
creating it lazily on first call; the map lookup-or-create is atomic under
the device mutex. Returns the updated device and the thread data. -/
def VKDevice.current_thread_data (d : VKDevice) (caller : Nat) : VKDevice × VKThreadData :=
  match d.thread_data_.find? (fun t => t.thread_id == caller) with
  | some t => (d, t)
  | none =>
      let t := freshThreadData caller
      ({ d with thread_data_ := d.thread_data_ ++ [t] }, t)

/-- Which discard pool a destruction request is routed to: the device-wide
orphan pool, or the pool of one slot of one thread ring. -/
inductive DiscardPoolRef where
  | orphan : DiscardPoolRef
  | thread_slot (thread_id : Nat) (slot : Fin 5) : DiscardPoolRef
deriving DecidableEq, Repr

/-- Modelled from the spec: `discard_pool_for_current_thread()` (declared
`vk_device.hh` lines 272-284, body elsewhere). When the calling thread has
a registered context, the discard pool of that thread's active resource
pool slot is returned; when there is no context the orphan discard pool is
returned. -/
def VKDevice.discard_pool_for_current_thread (d : VKDevice) (caller : Nat) :
    VKDevice × DiscardPoolRef :=
  if d.contexts_.any (fun c => c.thread_id == caller) then
    let (d1, t) := d.current_thread_data caller
    (d1, DiscardPoolRef.thread_slot caller ⟨t.resource_pool_index, resource_pool_index_lt t⟩)
  else
    (d, DiscardPoolRef.orphan)

/-- Modelled from the spec: `context_register` adds a rendering context to
the device registry; the registry is a set, so a context already present
is not added twice. -/
def VKDevice.context_register (d : VKDevice) (ctx : VKContext) : VKDevice :=
  if d.contexts_.contains ctx then d
  else { d with contexts_ := d.contexts_ ++ [ctx] }

/-- Modelled from the spec: `context_unregister` (declared `vk_device.hh`
line 287, body elsewhere) removes a rendering context from the device
registry; removing an already-absent context is a no-op, not an error. -/
def VKDevice.context_unregister (d : VKDevice) (ctx : VKContext) : VKDevice :=
  { d with contexts_ := d.contexts_.filter (fun c => !(c == ctx)) }

/-- All discard entries still pending anywhere in the device: every slot
pool of every thread ring, then the orphan pool. -/
def VKDevice.pending_entries (d : VKDevice) : List DiscardEntry :=
  (d.thread_data_.map (fun t =>
      (t.swap_chain_resources.val.map (fun p => p.discard_pool.entries)).flatten)).flatten
    ++ d.orphaned_data.entries

/-- Modelled from the spec: `deinit()` (declared `vk_device.hh` line 240,
body elsewhere) drains every discard pool, releases thread data and the
logical device; calling it on an already-deinitialized device is an
idempotent no-op. Returns the torn-down device and the entries released. -/
def VKDevice.deinit (d : VKDevice) : VKDevice × List DiscardEntry :=
  if d.is_initialized then
    ({ vk_device_valid := false
       contexts_ := d.contexts_
       thread_data_ := []
       orphaned_data := ⟨[]⟩ }, d.pending_entries)
  else
    (d, [])

/-- Modelled from the spec: a sequence of `current_thread_data()` calls,
given as the list of calling thread identities in the order the (mutex
protected, hence atomic) map operations interleave. -/
def VKDevice.runCalls (d : VKDevice) : List Nat → VKDevice
  | [] => d
  | tid :: rest => ((d.current_thread_data tid).1).runCalls rest

/-- Modelled from the spec: the state of one thread's resource-pool ring
rotation across frames. `occupant j` is the frame number whose resources
currently occupy ring slot `j` (`none` while the slot has never been
used). -/
structure RingState where
  occupant : Nat → Option Nat

/-- Modelled from the spec: the frame boundary for frame `N` on a ring of
size `R`. Slot `N % R` is rotated to: its previous occupant's resources
are released for reuse, and frame `N` takes the slot. Returns the new
state and the frame whose resources were released. -/
def RingState.step (R : Nat) (s : RingState) (N : Nat) : RingState × Option Nat :=
  (⟨fun j => if j = N % R then some N else s.occupant j⟩, s.occupant (N % R))

/-- State of the ring after frames `0, 1, ..., M-1` have been issued in
order, starting from the initial all-empty ring. -/
def ringRun (R : Nat) : Nat → RingState
  | 0 => ⟨fun _ => none⟩
  | M + 1 => ((ringRun R M).step R M).1

/-- The frame whose resources are released for reuse at frame boundary
`M`, i.e. the previous occupant of slot `M % R` when frame `M` rotates
into it. -/
def releasedAt (R M : Nat) : Option Nat :=
  ((ringRun R M).step R M).2

lemma ringRun_occupant (R : Nat) (hR : 0 < R) :
    ∀ M j, j < R →
      (ringRun R M).occupant j =
        if j < M then some (M - 1 - ((M - 1 - j) % R)) else none := by
  intro M
  induction M with
  | zero => intro j _; simp [ringRun]
  | succ M ih =>
      intro j hj
      show (if j = M % R then some M else (ringRun R M).occupant j) = _
      rcases eq_or_ne j (M % R) with hcase | hcase
      · subst hcase
        have hle : M % R ≤ M := Nat.mod_le M R
        rw [if_pos rfl, if_pos (by omega)]
        have hdm := Nat.div_add_mod M R
        have hsub : M - M % R = R * (M / R) := by omega
        have hz : (M - M % R) % R = 0 := by
          rw [hsub]; exact Nat.mul_mod_right R (M / R)
        have : M + 1 - 1 - (M + 1 - 1 - M % R) % R = M := by
          have h1 : M + 1 - 1 - M % R = M - M % R := by omega
          rw [h1]
          omega
        rw [this]
      · rw [if_neg hcase, ih j hj]
        rcases Nat.lt_or_ge j M with hjM | hjM
        · rw [if_pos hjM, if_pos (by omega)]
          have ha : 1 ≤ M - j := by omega
          have hmodne : (M - j) % R ≠ 0 := by
            intro h0
            have hdm := Nat.div_add_mod (M - j) R
            have : M - j = R * ((M - j) / R) := by omega
            have : M % R = j := by
              have hMj : M = j + R * ((M - j) / R) := by omega
              rw [hMj, Nat.add_mul_mod_self_left]
              exact Nat.mod_eq_of_lt hj
            exact hcase this.symm
          have hdm := Nat.div_add_mod (M - j) R
          have hrlt : (M - j) % R < R := Nat.mod_lt _ hR
          have hpred : (M - j - 1) % R = (M - j) % R - 1 := by
            have h1 : M - j - 1 = R * ((M - j) / R) + ((M - j) % R - 1) := by omega
            rw [h1, Nat.mul_add_mod]
            exact Nat.mod_eq_of_lt (by omega)
          have h2 : M - 1 - (M - 1 - j) % R = M - (M - j) % R := by
            have h3 : M - 1 - j = M - j - 1 := by omega
            rw [h3, hpred]
            omega
          have h4 : M + 1 - 1 - (M + 1 - 1 - j) % R = M - (M - j) % R := by
            have h5 : M + 1 - 1 - j = M - j := by omega
            rw [h5]
            omega
          rw [h2, h4]
        · have hjM1 : ¬j < M := by omega
          rw [if_neg hjM1]
          have : ¬j < M + 1 := by
            intro hlt
            have hjeq : j = M := by omega
            subst hjeq
            exact hcase (Nat.mod_eq_of_lt hj).symm
          rw [if_neg this]

lemma releasedAt_eq (R M : Nat) (hR : 0 < R) :
    releasedAt R M = if R ≤ M then some (M - R) else none := by
  unfold releasedAt RingState.step
  have hmlt : M % R < R := Nat.mod_lt _ hR
  rw [ringRun_occupant R hR M (M % R) hmlt]
  rcases Nat.lt_or_ge M R with hMR | hMR
  · rw [Nat.mod_eq_of_lt hMR]
    rw [if_neg (by omega), if_neg (by omega)]
  · have hlt : M % R < M := by
      have := Nat.mod_lt M hR
      omega
    rw [if_pos hlt, if_pos hMR]
    have hdm := Nat.div_add_mod M R
    have hq1 : 1 ≤ M / R := by
      rcases Nat.eq_zero_or_pos (M / R) with h0 | h1
      · rw [h0] at hdm
        have := Nat.mod_lt M hR
        omega
      · exact h1
    have hqsplit : ∃ q, M / R = q + 1 := ⟨M / R - 1, by omega⟩
    obtain ⟨q, hq⟩ := hqsplit
    have hsub : M - M % R = R * (q + 1) := by
      rw [← hq]; omega
    have h1 : M - 1 - M % R = R * q + (R - 1) := by
      have : R * (q + 1) = R * q + R := by ring
      omega
    have h2 : (M - 1 - M % R) % R = R - 1 := by
      rw [h1, Nat.mul_add_mod]
      exact Nat.mod_eq_of_lt (by omega)
    rw [h2]
    have : M - 1 - (R - 1) = M - R := by omega
    rw [this]

/-- Thread identities of the thread-data map, in creation order. -/
def threadIds (d : VKDevice) : List Nat :=
  d.thread_data_.map (fun t => t.thread_id)

lemma current_thread_data_ids (d : VKDevice) (tid : Nat) :
    threadIds (d.current_thread_data tid).1 =
      if tid ∈ threadIds d then threadIds d else threadIds d ++ [tid] := by
  unfold VKDevice.current_thread_data
  cases hfind : d.thread_data_.find? (fun t => t.thread_id == tid) with
  | some t =>
      have hmem : t ∈ d.thread_data_ := List.mem_of_find?_eq_some hfind
      have hpred := List.find?_some hfind
      have htid : t.thread_id = tid := by simpa using hpred
      have : tid ∈ threadIds d := by
        unfold threadIds
        exact List.mem_map.mpr ⟨t, hmem, htid⟩
      rw [if_pos this]
  | none =>
      have hnone := List.find?_eq_none.mp hfind
      have : tid ∉ threadIds d := by
        unfold threadIds
        intro hmem
        obtain ⟨t, ht, htid⟩ := List.mem_map.mp hmem
        exact absurd (by simpa using htid) (fun h => by
          have := hnone t ht
          simp [htid] at this)
      rw [if_neg this]
      unfold threadIds
      simp [freshThreadData]

lemma runCalls_mem (calls : List Nat) : ∀ (d : VKDevice) (x : Nat),
    x ∈ threadIds (d.runCalls calls) ↔ x ∈ threadIds d ∨ x ∈ calls := by
  induction calls with
  | nil => intro d x; simp [VKDevice.runCalls]
  | cons tid rest ih =>
      intro d x
      show x ∈ threadIds (((d.current_thread_data tid).1).runCalls rest) ↔ _
      rw [ih]
      rw [current_thread_data_ids]
      by_cases hmem : tid ∈ threadIds d
      · rw [if_pos hmem]
        constructor
        · rintro (hx | hx)
          · exact Or.inl hx
          · exact Or.inr (List.mem_cons_of_mem _ hx)
        · rintro (hx | hx)
          · exact Or.inl hx
          · rcases List.mem_cons.mp hx with rfl | hx
            · exact Or.inl hmem
            · exact Or.inr hx
      · rw [if_neg hmem]
        simp only [List.mem_append, List.mem_singleton, List.mem_cons]
        tauto

lemma runCalls_nodup (calls : List Nat) : ∀ (d : VKDevice),
    (threadIds d).Nodup → (threadIds (d.runCalls calls)).Nodup := by
  induction calls with
  | nil => intro d h; exact h
  | cons tid rest ih =>
      intro d h
      show (threadIds (((d.current_thread_data tid).1).runCalls rest)).Nodup
      apply ih
      rw [current_thread_data_ids]
      by_cases hmem : tid ∈ threadIds d
      · rw [if_pos hmem]; exact h
      · rw [if_neg hmem]
        rw [List.nodup_append]
        refine ⟨h, List.nodup_singleton tid, ?_⟩
        intro a ha hb
        rw [List.mem_singleton] at hb
        subst hb
        exact hmem ha

/-- C1: an entry of a Discard Pool whose retirement marker is not satisfied
is not released by drain with force set to false (it stays queued), while
drain with force set to true releases every pending entry, the unsatisfied
ones included, and leaves the pool empty. -/
theorem discard_pool_deferred_release (p : VKDiscardPool) (satisfied : Nat → Bool)
    (e : DiscardEntry) (he : e ∈ p.entries) (hu : satisfied e.marker = false) :
    e ∈ (p.drain satisfied false).1.entries ∧
    e ∉ (p.drain satisfied false).2 ∧
    (p.drain satisfied true).2 = p.entries ∧
    (p.drain satisfied true).1.entries = [] := by
  unfold VKDiscardPool.drain
  refine ⟨?_, ?_, ?_, ?_⟩
  · simp only [List.mem_filter]
    exact ⟨he, by simp [hu]⟩
  · simp only [List.mem_filter]
    intro hc
    rw [hu] at hc
    simpa using hc.2
  · simp
  · simp

/-- Witness for C1 at a one-entry pool whose marker is unsatisfied. -/
theorem discard_pool_deferred_release_witness :
    DiscardEntry.mk 7 3 ∈
      ((VKDiscardPool.mk [⟨7, 3⟩]).drain (fun _ => false) false).1.entries ∧
    DiscardEntry.mk 7 3 ∉
      ((VKDiscardPool.mk [⟨7, 3⟩]).drain (fun _ => false) false).2 ∧
    ((VKDiscardPool.mk [⟨7, 3⟩]).drain (fun _ => false) true).2 = [⟨7, 3⟩] ∧
    ((VKDiscardPool.mk [⟨7, 3⟩]).drain (fun _ => false) true).1.entries = [] :=
  discard_pool_deferred_release ⟨[⟨7, 3⟩]⟩ (fun _ => false) ⟨7, 3⟩ (by simp) rfl

/-- C2: on a ring of size R, frame N occupies slot N mod R, the resources
placed there during frame N are released for reuse exactly when frame
N + R begins, and no earlier frame boundary releases them. -/
theorem ring_non_overlap (R N : Nat) (hR : 0 < R) :
    (ringRun R (N + 1)).occupant (N % R) = some N ∧
    releasedAt R (N + R) = some N ∧
    ∀ M, M < N + R → releasedAt R M ≠ some N := by
  refine ⟨?_, ?_, ?_⟩
  · rw [ringRun_occupant R hR (N + 1) (N % R) (Nat.mod_lt _ hR)]
    have hle : N % R ≤ N := Nat.mod_le N R
    rw [if_pos (by omega)]
    have hdm := Nat.div_add_mod N R
    have hsub : N - N % R = R * (N / R) := by omega
    have hz : (N - N % R) % R = 0 := by
      rw [hsub]; exact Nat.mul_mod_right R (N / R)
    have h1 : N + 1 - 1 - N % R = N - N % R := by omega
    rw [h1, hz]
    congr 1
  · rw [releasedAt_eq R (N + R) hR, if_pos (by omega)]
    have : N + R - R = N := by omega
    rw [this]
  · intro M hM
    rw [releasedAt_eq R M hR]
    rcases Nat.lt_or_ge M R with h | h
    · rw [if_neg (by omega)]
      exact fun hc => Option.noConfusion hc
    · rw [if_pos h]
      intro hc
      have := Option.some.inj hc
      omega

/-- Witness for C2 at the spec scenario: ring size 5, frame 6; release
happens at frame 11 and at no earlier frame. -/
theorem ring_non_overlap_witness :
    (ringRun 5 (6 + 1)).occupant (6 % 5) = some 6 ∧
    releasedAt 5 (6 + 5) = some 6 ∧
    ∀ M, M < 6 + 5 → releasedAt 5 M ≠ some 6 :=
  ring_non_overlap 5 6 (by decide)

/-- C5: resource_pool_get returns the pool at index 0 whenever the current
swap-chain index is at or beyond the ring size, and the pool at the current
index otherwise; being a total function of the state, it never faults. -/
theorem resource_pool_get_slot_fallback (t : VKThreadData) :
    (5 ≤ t.current_swap_chain_index → t.resource_pool_get = t.slot 0) ∧
    (∀ h : t.current_swap_chain_index < 5,
      t.resource_pool_get = t.slot ⟨t.current_swap_chain_index, h⟩) := by
  have hlen := t.swap_chain_resources.property
  constructor
  · intro h5
    unfold VKThreadData.resource_pool_get VKThreadData.slot
    rw [dif_pos (by omega)]
    rfl
  · intro h5
    unfold VKThreadData.resource_pool_get VKThreadData.slot
    rw [dif_neg (by omega)]

/-- Witness for C5: a fresh thread ring (sentinel index) falls back to slot
0, and after the index is set to 2 the pool at index 2 is returned. -/
theorem resource_pool_get_slot_fallback_witness :
    (freshThreadData 3).resource_pool_get = (freshThreadData 3).slot 0 ∧
    ((freshThreadData 3).set_swap_chain_index 2).resource_pool_get =
      ((freshThreadData 3).set_swap_chain_index 2).slot ⟨2, by decide⟩ :=
  ⟨(resource_pool_get_slot_fallback (freshThreadData 3)).1 (by decide),
   (resource_pool_get_slot_fallback ((freshThreadData 3).set_swap_chain_index 2)).2
     (by decide)⟩

/-- C9: every resource_pool_get access is in bounds on the 5-element ring
for every value of the current index; a freshly constructed VKThreadData
has current_swap_chain_index equal to UINT32_MAX, which is out of range, so
its first resource_pool_get returns the pool at index 0. -/
theorem resource_pool_access_in_bounds (t : VKThreadData) (tid : Nat) :
    t.resource_pool_index < 5 ∧
    t.swap_chain_resources.val.length = 5 ∧
    t.resource_pool_get = t.slot ⟨t.resource_pool_index, resource_pool_index_lt t⟩ ∧
    (freshThreadData tid).current_swap_chain_index = UINT32_MAX ∧
    5 ≤ (freshThreadData tid).current_swap_chain_index ∧
    (freshThreadData tid).resource_pool_get = (freshThreadData tid).slot 0 := by
  refine ⟨resource_pool_index_lt t, t.swap_chain_resources.property,
    resource_pool_get_eq_slot t, rfl, by simp [freshThreadData, UINT32_MAX], ?_⟩
  unfold VKThreadData.resource_pool_get VKThreadData.slot
  rw [dif_pos (by simp [freshThreadData, UINT32_MAX])]
  rfl

/-- C3: when the calling thread has a registered context, the returned
discard pool is the one of that thread's active resource pool slot; when
the calling thread has no registered context, the orphan discard pool is
returned and the request never lands in any per-thread pool. -/
theorem discard_pool_routing (d : VKDevice) (caller : Nat) :
    (d.contexts_.any (fun c => c.thread_id == caller) = true →
      (d.discard_pool_for_current_thread caller).2 =
        DiscardPoolRef.thread_slot caller
          ⟨((d.current_thread_data caller).2).resource_pool_index,
            resource_pool_index_lt ((d.current_thread_data caller).2)⟩) ∧
    (d.contexts_.any (fun c => c.thread_id == caller) = false →
      (d.discard_pool_for_current_thread caller).2 = DiscardPoolRef.orphan ∧
      ∀ tid slot, (d.discard_pool_for_current_thread caller).2 ≠
        DiscardPoolRef.thread_slot tid slot) := by
  unfold VKDevice.discard_pool_for_current_thread
  constructor
  · intro h
    rw [if_pos h]
  · intro h
    rw [if_neg (by simp [h])]
    exact ⟨rfl, fun tid slot hc => DiscardPoolRef.noConfusion hc⟩

/-- Witness for C3: thread 42 has a registered context and is routed to
its active slot; thread 7 has none and is routed to the orphan pool. -/
theorem discard_pool_routing_witness :
    ((VKDevice.mk true [⟨1, 42⟩] [] ⟨[]⟩).discard_pool_for_current_thread 42).2 =
      DiscardPoolRef.thread_slot 42
        ⟨(((VKDevice.mk true [⟨1, 42⟩] [] ⟨[]⟩).current_thread_data 42).2).resource_pool_index,
          resource_pool_index_lt
            (((VKDevice.mk true [⟨1, 42⟩] [] ⟨[]⟩).current_thread_data 42).2)⟩ ∧
    ((VKDevice.mk true [⟨1, 42⟩] [] ⟨[]⟩).discard_pool_for_current_thread 7).2 =
      DiscardPoolRef.orphan :=
  ⟨(discard_pool_routing (VKDevice.mk true [⟨1, 42⟩] [] ⟨[]⟩) 42).1 (by decide),
   ((discard_pool_routing (VKDevice.mk true [⟨1, 42⟩] [] ⟨[]⟩) 7).2 (by decide)).1⟩

/-- C4: for any interleaving of current_thread_data calls (given as the
sequence of atomic map operations by calling thread identity), starting
from a device with no thread data, the created Thread Execution Contexts
have pairwise distinct thread identities, one exists exactly for each
thread that called, and their number is the number of distinct calling
threads. -/
theorem single_context_per_thread (calls : List Nat) :
    (threadIds (VKDevice.uninitialized.runCalls calls)).Nodup ∧
    (∀ x, x ∈ threadIds (VKDevice.uninitialized.runCalls calls) ↔ x ∈ calls) ∧
    (threadIds (VKDevice.uninitialized.runCalls calls)).length = calls.toFinset.card := by
  have hnd : (threadIds VKDevice.uninitialized).Nodup := by
    simp [threadIds, VKDevice.uninitialized]
  have h1 := runCalls_nodup calls VKDevice.uninitialized hnd
  have h2 : ∀ x, x ∈ threadIds (VKDevice.uninitialized.runCalls calls) ↔ x ∈ calls := by
    intro x
    rw [runCalls_mem calls VKDevice.uninitialized x]
    simp [threadIds, VKDevice.uninitialized]
  refine ⟨h1, h2, ?_⟩
  have hset : (threadIds (VKDevice.uninitialized.runCalls calls)).toFinset = calls.toFinset := by
    apply Finset.ext
    intro a
    simp only [List.mem_toFinset]
    exact h2 a
  rw [← hset]
  exact (List.toFinset_card_of_nodup h1).symm

/-- C6: the second of two successive deinit calls is a no-op: it releases
no entry and returns the device state unchanged; after one deinit the
device is no longer initialized. -/
theorem deinit_idempotent (d : VKDevice) :
    ((d.deinit).1).deinit = ((d.deinit).1, []) ∧
    ((d.deinit).1).is_initialized = false := by
  by_cases h : d.vk_device_valid
  · simp [VKDevice.deinit, VKDevice.is_initialized, h]
  · simp [VKDevice.deinit, VKDevice.is_initialized, h]

/-- C7: the resource-pool ring of a Thread Execution Context has size 5
(the maximum number of frames in flight) from construction on; every
thread-data value carries a ring of exactly that size, and the slot-index
mutation leaves the ring itself untouched. -/
theorem ring_size_fixed (tid i : Nat) (t : VKThreadData) :
    (freshThreadData tid).swap_chain_resources.val.length = 5 ∧
    t.swap_chain_resources.val.length = 5 ∧
    (t.set_swap_chain_index i).swap_chain_resources = t.swap_chain_resources :=
  ⟨by simp [freshThreadData], t.swap_chain_resources.property, rfl⟩

/-- C8: unregistering a context that is absent from the registry is a
no-op leaving the device unchanged, and a second unregister of the same
context after a first one changes nothing. -/
theorem context_unregister_idempotent (d d2 : VKDevice) (ctx : VKContext)
    (habs : ctx ∉ d.contexts_) :
    d.context_unregister ctx = d ∧
    (d2.context_unregister ctx).context_unregister ctx = d2.context_unregister ctx := by
  constructor
  · unfold VKDevice.context_unregister
    have hself : d.contexts_.filter (fun c => !(c == ctx)) = d.contexts_ := by
      apply List.filter_eq_self.mpr
      intro a ha
      rcases eq_or_ne a ctx with rfl | hne
      · exact absurd ha habs
      · simp [hne]
    rw [hself]
  · unfold VKDevice.context_unregister
    simp [List.filter_filter]

/-- Witness for C8: removing an unregistered context from an empty
registry is a no-op, and a double unregister equals a single one. -/
theorem context_unregister_idempotent_witness :
    (VKDevice.mk true [] [] ⟨[]⟩).context_unregister ⟨1, 2⟩ =
      VKDevice.mk true [] [] ⟨[]⟩ ∧
    ((VKDevice.mk true [⟨1, 2⟩] [] ⟨[]⟩).context_unregister ⟨1, 2⟩).context_unregister ⟨1, 2⟩ =
      (VKDevice.mk true [⟨1, 2⟩] [] ⟨[]⟩).context_unregister ⟨1, 2⟩ :=
  context_unregister_idempotent (VKDevice.mk true [] [] ⟨[]⟩)
    (VKDevice.mk true [⟨1, 2⟩] [] ⟨[]⟩) ⟨1, 2⟩ (by decide)

end VKSpec
